import Mathlib

/-!
# Verification of the deskmate mailbox-synchronization core

Shallow embedding of the IMAP IDLE listener subsystem of the `deskmate`
backend (`backend/services/imap_idle_service.py`,
`backend/services/email_service.py`, `backend/utils/email_parser.py`,
`backend/models/database.py`) together with proofs of the spec's testable
properties.

Conventions used throughout the embedding:
* Python strings are modelled as Lean `String` (or `List Char` where
  character-level scanning is needed); byte strings as `List Nat`.
* SQLite tables are modelled as lists of row structures; `INSERT OR IGNORE`
  consults the declared uniqueness constraints of the schema.
* Exception-raising primitives are modelled as `Except`- or `Option`-valued
  oracle inputs; a Python `try/except` becomes a `match` on that value.
* Wall-clock sleeping and socket timeouts are not modelled (they only delay,
  never change, the control flow that the claims are about).
-/

namespace Deskmate

/-! ## Persistence layer (`backend/models/database.py`,
`email_service.sync_messages`, `IMAPIdleManager.save_email_to_db`)

The `email_messages` table has `id TEXT PRIMARY KEY` and
`UNIQUE(account_id, uid)`; `email_attachments` has `id TEXT PRIMARY KEY`
with a `message_id` foreign key.  Only the columns the claims inspect are
carried. -/

/-- One row of the `email_messages` table (key columns only). -/
structure EmailMessageRow where
  id : String
  account_id : String
  uid : String
  deriving Repr, DecidableEq

/-- One row of the `email_attachments` table. -/
structure EmailAttachmentRow where
  id : String
  message_id : String
  filename : String
  content_type : String
  size : Nat
  deriving Repr, DecidableEq

/-- The slice of the SQLite database the ingestion path touches. -/
structure EmailDB where
  messages : List EmailMessageRow
  attachments : List EmailAttachmentRow
  deriving Repr, DecidableEq

/-- `INSERT OR IGNORE INTO email_messages`: the row is ignored exactly when
it conflicts with an existing row on `id` (primary key) or on the composite
`UNIQUE(account_id, uid)` constraint.  Returns the new table contents and
the `cursor.rowcount > 0` flag. -/
def insertOrIgnoreMessage (rows : List EmailMessageRow) (m : EmailMessageRow) :
    List EmailMessageRow × Bool :=
  if rows.any (fun r => r.id = m.id ∨ (r.account_id = m.account_id ∧ r.uid = m.uid)) then
    (rows, false)
  else
    (rows ++ [m], true)

/-- Attachment metadata produced by the parser, as inserted by
`sync_messages` (`INSERT INTO email_attachments`). -/
structure AttachmentInfo where
  id : String
  filename : String
  content_type : String
  size : Nat
  deriving Repr, DecidableEq

/-- The per-message persistence step of `email_service.sync_messages`
(lines 246–268): `INSERT OR IGNORE` the message row, and insert the
attachment rows only when `cursor.rowcount > 0`, i.e. only when the message
insert actually took effect. -/
def persistMessage (db : EmailDB) (m : EmailMessageRow) (atts : List AttachmentInfo) :
    EmailDB × Bool :=
  let (rows, inserted) := insertOrIgnoreMessage db.messages m
  if inserted then
    ({ messages := rows,
       attachments := db.attachments ++ atts.map (fun a =>
         { id := a.id, message_id := m.id, filename := a.filename,
           content_type := a.content_type, size := a.size }) }, true)
  else
    ({ db with messages := rows }, false)

/-- Number of `email_messages` rows carrying a given `(account_id, uid)`
key. -/
def countKey (rows : List EmailMessageRow) (accountId uid : String) : Nat :=
  (rows.filter (fun r => r.account_id = accountId ∧ r.uid = uid)).length

/-! ## `IMAPIdleListener` state machine (`imap_idle_service.py`)

The listener's mutable attributes are gathered in `ListenerState`; the
`idle_loop` thread body is a recursion over a finite trace of per-iteration
environment inputs (`IterIn`).  Server uids are modelled as `Nat` (the code
stores them as decimal strings and compares through `int(...)`).  Sleeps
and socket timeouts are not modelled.  Callback invocations
(`on_status_change`, `on_new_email`) are collected as an `Emit` list in
program order. -/

/-- An observable callback invocation of the listener. -/
inductive Emit where
  | status (s : String)
  | newEmail (uid : Nat)
  deriving Repr, DecidableEq

/-- The mutable attributes of an `IMAPIdleListener` set in `__init__`:
`running`, `idle_conn` (presence only), `supports_idle`,
`last_processed_uid`, `operation_conn` (presence only).  `threads` counts
how many `threading.Thread` execution units `start()` has spawned. -/
structure ListenerState where
  running : Bool
  idle_conn : Bool
  supports_idle : Bool
  last_processed_uid : Option Nat
  operation_conn : Bool
  threads : Nat
  deriving Repr, DecidableEq

/-- Attribute values assigned by `IMAPIdleListener.__init__`. -/
def initListener : ListenerState :=
  { running := false, idle_conn := false, supports_idle := true,
    last_processed_uid := none, operation_conn := false, threads := 0 }

/-- The per-uid loop of `idle_loop` (lines 296–301 and 332–337): for each
uid of the SEARCH result, `fetch_new_email`; when it returns data, invoke
`on_new_email` and advance `last_processed_uid` to that uid.  `fetchOk`
says whether `fetch_new_email` returns data for a uid.  Returns the final
cursor and the uids passed to `on_new_email`, in order. -/
def processNewUids (cursor : Nat) : List Nat → (Nat → Bool) → Nat × List Nat
  | [], _ => (cursor, [])
  | uid :: rest, fetchOk =>
    if fetchOk uid then
      let r := processNewUids uid rest fetchOk
      (r.1, uid :: r.2)
    else processNewUids cursor rest fetchOk

/-- The guarded SEARCH block of `idle_loop` (lines 290–303, repeated at
326–339): only when `self.last_processed_uid` is set, issue
`UID SEARCH UID cursor+1:*` and process the result.  `searchRes = none`
models a raised exception, a non-`OK` status or an empty `uids[0]` (all of
which skip processing). -/
def searchAndProcess (cursor : Option Nat) (searchRes : Option (List Nat))
    (fetchOk : Nat → Bool) : Option Nat × List Nat :=
  match cursor with
  | none => (none, [])
  | some c =>
    match searchRes with
    | none => (some c, [])
    | some uids =>
      let r := processNewUids c uids fetchOk
      (some r.1, r.2)

/-- Outcome of the wait phase of one `idle_loop` iteration.
* `idleNotifies ns`: IDLE mode; the 29-minute cycle saw the notifications
  `ns` (each element is the SEARCH result issued after an
  `EXISTS`/`RECENT` response) and ended normally (cycle expiry, inner
  `idle_check` exception, or `running` turning false).
* `idleErr ns`: IDLE mode; after processing the notifications `ns`, an
  exception escaped to the handler at line 352, so `supports_idle` is
  turned off.
* `pollOk`: polling mode; the `select('INBOX')` refresh succeeded.
* `pollConnLost`: polling mode; the refresh raised, so `idle_conn` is
  dropped (line 365).
* `outerErr`: an exception escaped the whole iteration body to the handler
  at line 367 (`reconnecting`, drop connection, retry accounting). -/
inductive WaitOutcome where
  | idleNotifies (ns : List (Option (List Nat)))
  | idleErr (ns : List (Option (List Nat)))
  | pollOk
  | pollConnLost
  | outerErr

/-- Environment inputs consumed by one `while self.running` iteration. -/
structure IterIn where
  connectOk : Bool
  searchRes : Option (List Nat)
  fetchOk : Nat → Bool
  wait : WaitOutcome

/-- `max_retries` of `idle_loop`. -/
def max_retries : Nat := 5

/-- The notification-processing loop inside the IDLE wait cycle (lines
312–342): each `EXISTS`/`RECENT` notification triggers `idle_done`, the
guarded SEARCH block, and a fresh `idle`. -/
def processNotifies (cursor : Option Nat) (ns : List (Option (List Nat)))
    (fetchOk : Nat → Bool) : Option Nat × List Emit :=
  ns.foldl (fun acc sr =>
    let r := searchAndProcess acc.1 sr fetchOk
    (r.1, acc.2 ++ r.2.map Emit.newEmail)) (cursor, [])

/-- The body of one iteration of `idle_loop` from the point where
`idle_conn` is known present: emit `listening`, run the guarded SEARCH
block, then the wait phase.  Returns the new state, the new retry count,
the emissions, and whether the iteration executed `break`. -/
def iterCore (st : ListenerState) (retryCount : Nat) (ev : IterIn) :
    ListenerState × Nat × List Emit × Bool :=
  let (cursor1, mails) := searchAndProcess st.last_processed_uid ev.searchRes ev.fetchOk
  let st1 := { st with last_processed_uid := cursor1 }
  let base := Emit.status "listening" :: mails.map Emit.newEmail
  let onOuterErr : ListenerState → ListenerState × Nat × List Emit × Bool := fun s =>
    let s2 := { s with idle_conn := false }
    let rc := retryCount + 1
    if max_retries ≤ rc then
      (s2, rc, base ++ [Emit.status "reconnecting", Emit.status "error"], true)
    else
      (s2, rc, base ++ [Emit.status "reconnecting"], false)
  if st1.supports_idle then
    match ev.wait with
    | .idleNotifies ns =>
      let r := processNotifies cursor1 ns ev.fetchOk
      ({ st1 with last_processed_uid := r.1 }, retryCount, base ++ r.2, false)
    | .idleErr ns =>
      let r := processNotifies cursor1 ns ev.fetchOk
      ({ st1 with last_processed_uid := r.1, supports_idle := false },
        retryCount, base ++ r.2, false)
    | .outerErr => onOuterErr st1
    | _ => (st1, retryCount, base, false)
  else
    match ev.wait with
    | .pollOk => (st1, retryCount, base, false)
    | .pollConnLost => ({ st1 with idle_conn := false }, retryCount, base, false)
    | .outerErr => onOuterErr st1
    | _ => (st1, retryCount, base, false)

/-- The `while self.running` loop of `idle_loop`, driven by a finite trace
of environment inputs.  Returns the final state, the emissions, and whether
the loop exited (`running` seen false, or `break` on retry exhaustion); a
fully consumed trace with `running` still true leaves the loop logically
still in flight, so no exit is reported. -/
def idleLoopAux (st : ListenerState) (retryCount : Nat) :
    List IterIn → ListenerState × List Emit × Bool
  | [] => (st, [], !st.running)
  | ev :: rest =>
    if st.running then
      if st.idle_conn then
        let (st1, rc1, ems1, brk) := iterCore st retryCount ev
        if brk then (st1, ems1, true)
        else
          let (st', ems', ex) := idleLoopAux st1 rc1 rest
          (st', ems1 ++ ems', ex)
      else
        if ev.connectOk then
          let st1 := { st with idle_conn := true }
          let (st2, rc2, ems2, brk) := iterCore st1 0 ev
          if brk then (st2, Emit.status "connecting" :: ems2, true)
          else
            let (st', ems', ex) := idleLoopAux st2 rc2 rest
            (st', Emit.status "connecting" :: ems2 ++ ems', ex)
        else
          let rc := retryCount + 1
          if max_retries ≤ rc then
            (st, [Emit.status "connecting", Emit.status "error"], true)
          else
            let (st', ems', ex) := idleLoopAux st rc rest
            (st', Emit.status "connecting" :: ems', ex)
    else (st, [], true)

/-- `IMAPIdleListener.idle_loop`: run the `while` loop starting from
`retry_count = 0`; when (and only when) the loop exits, the trailing
unconditional `on_status_change(account_id, 'stopped')` at line 386 fires. -/
def idle_loop (st : ListenerState) (trace : List IterIn) :
    ListenerState × List Emit :=
  let (st', ems, exited) := idleLoopAux st 0 trace
  (st', ems ++ if exited then [Emit.status "stopped"] else [])

/-- `IMAPIdleListener.start`: no-op when `running` is already true;
otherwise set `running` and spawn the `idle_loop` thread. -/
def ListenerState.start (st : ListenerState) : ListenerState :=
  if st.running then st
  else { st with running := true, threads := st.threads + 1 }

/-- `IMAPIdleListener.stop`: clear `running`, drop the idle connection and
release the operation connection. -/
def ListenerState.stop (st : ListenerState) : ListenerState :=
  { st with running := false, idle_conn := false, operation_conn := false }

/-! ## Operation connection and `mark_as_read`
(`IMAPIdleListener.get_operation_connection` /
`IMAPIdleListener.mark_as_read` / `IMAPIdleManager.mark_as_read`)

Each fallible IMAP primitive is an `Except Unit Unit` oracle value
(`.error ()` = the call raises); every `try/except` of the source becomes a
`match` on the corresponding oracle.  The translation returns
`Except Unit _` so that an uncaught raise *could* be expressed — proving it
never occurs is claim C6's content. -/

/-- Oracle outcomes for the IMAP primitives used on the operate
connection: the `noop()` liveness probe, the
connect/`login`/`select('INBOX')` sequence creating a fresh connection, and
the `uid('STORE', uid, '+FLAGS', '\\Seen')` command. -/
structure OpEnv where
  noopRes : Except Unit Unit
  connectRes : Except Unit Unit
  storeRes : Except Unit Unit

/-- The connection-creating tail of `get_operation_connection` (lines
101–115): try SSL connect + login + `select('INBOX', readonly=False)`;
on success cache and return the connection, on any exception return
`None`. -/
def createOperationConn (st : ListenerState) (env : OpEnv) :
    Except Unit (ListenerState × Bool) :=
  match env.connectRes with
  | .ok _ => .ok ({ st with operation_conn := true }, true)
  | .error _ => .ok (st, false)

/-- `IMAPIdleListener.get_operation_connection`: under the operation lock,
probe a cached connection with `noop()` (dropping it when the probe
raises), then lazily create a fresh one.  The returned `Bool` says whether
a connection was obtained. -/
def get_operation_connection (st : ListenerState) (env : OpEnv) :
    Except Unit (ListenerState × Bool) :=
  if st.operation_conn then
    match env.noopRes with
    | .ok _ => .ok (st, true)
    | .error _ => createOperationConn { st with operation_conn := false } env
  else createOperationConn st env

/-- `IMAPIdleListener.mark_as_read`: acquire the operate connection
(`false` when none is obtainable), issue the STORE command, return `true`
on success; when the command raises, drop the cached connection and return
`false`. -/
def ListenerState.mark_as_read (st : ListenerState) (env : OpEnv) :
    Except Unit (ListenerState × Bool) := do
  let (st1, got) ← get_operation_connection st env
  if got then
    match env.storeRes with
    | .ok _ => .ok (st1, true)
    | .error _ => .ok ({ st1 with operation_conn := false }, false)
  else .ok (st1, false)

/-! ## `IMAPIdleManager` registry

`self.listeners` is a Python dict from account id to listener; it is
modelled as an insertion-ordered association list.  The socket status
pushes (`on_status_change` → `socketio.emit`) carry no registry state and
are not modelled here. -/

/-- The `IMAPIdleManager.listeners` registry. -/
structure ManagerState where
  listeners : List (String × ListenerState)
  deriving Repr, DecidableEq

/-- Dict lookup `self.listeners[account_id]` / `account_id in
self.listeners`. -/
def ManagerState.lookup (m : ManagerState) (accountId : String) :
    Option ListenerState :=
  (m.listeners.find? (fun p => p.1 = accountId)).map Prod.snd

/-- `IMAPIdleManager.start_listening`: under the registry lock, return
`True` at once when the account already has a registered listener;
otherwise (when the account row exists) build a fresh listener, register
it, and `start()` it.  `accountExists` models
`self.db.get_email_account(account_id)` returning a row. -/
def start_listening (m : ManagerState) (accountId : String)
    (accountExists : Bool) : ManagerState × Bool :=
  if (m.lookup accountId).isSome then (m, true)
  else if accountExists then
    ({ listeners := m.listeners ++ [(accountId, initListener.start)] }, true)
  else (m, false)

/-- `IMAPIdleManager.stop_listening`: under the registry lock, stop and
deregister the account's listener when present. -/
def stop_listening (m : ManagerState) (accountId : String) : ManagerState :=
  match m.lookup accountId with
  | some _ => { listeners := (m.listeners.filter (fun p => ¬ p.1 = accountId)) }
  | none => m

/-- `IMAPIdleManager.is_listening`: the account has a registered listener
whose `running` flag is true. -/
def is_listening (m : ManagerState) (accountId : String) : Bool :=
  match m.lookup accountId with
  | some l => l.running
  | none => false

/-- `IMAPIdleManager.get_status` for a single account id: `'listening'`
when the registered listener's `running` flag is true, else `'stopped'`. -/
def get_status (m : ManagerState) (accountId : String) : String :=
  match m.lookup accountId with
  | some l => if l.running then "listening" else "stopped"
  | none => "stopped"

/-- `IMAPIdleManager.mark_as_read`: under the registry lock, delegate to
the registered listener; `False` when the account has none. -/
def manager_mark_as_read (m : ManagerState) (accountId : String) (env : OpEnv) :
    Except Unit (ManagerState × Bool) :=
  match m.listeners.find? (fun p => p.1 = accountId) with
  | some p => do
    let (l', b) ← p.2.mark_as_read env
    .ok ({ listeners := m.listeners.map (fun q =>
            if q.1 = accountId then (q.1, l') else q) }, b)
  | none => .ok (m, false)

/-! ## Message parser (`backend/utils/email_parser.py`)

Strings manipulated character-by-character are modelled as `List Char`,
decoded payload bytes as `List Nat`.  `payload.decode(charset,
errors='ignore')` is modelled on its ASCII fragment: bytes below 128 decode
to themselves, others are dropped as undecodable (all inputs used in the
theorems are ASCII, where this coincides with CPython). -/

/-- Python `str.startswith` on character lists. -/
def listStarts : List Char → List Char → Bool
  | [], _ => true
  | _ :: _, [] => false
  | p :: ps, c :: cs => p = c && listStarts ps cs

/-- Python `pat in s` substring membership on character lists. -/
def containsSub (pat : List Char) : List Char → Bool
  | [] => pat.isEmpty
  | c :: rest => listStarts pat (c :: rest) || containsSub pat rest

/-- Python `str.endswith` on character lists. -/
def endsWithL (pat s : List Char) : Bool :=
  listStarts pat.reverse s.reverse

/-- Python `str.lower` (ASCII case folding, as used on ASCII header
values). -/
def lowerL (s : List Char) : List Char :=
  s.map Char.toLower

/-- Worker for `replaceAll`; `fuel` bounds the number of characters still
to be scanned and is structurally consumed (each step consumes at least one
character of `s`, so `s.length` fuel is always enough). -/
def replaceAllF (pat rep : List Char) : Nat → List Char → List Char
  | 0, s => s
  | _ + 1, [] => []
  | fuel + 1, c :: rest =>
    if pat ≠ [] ∧ listStarts pat (c :: rest) = true then
      rep ++ replaceAllF pat rep fuel ((c :: rest).drop pat.length)
    else
      c :: replaceAllF pat rep fuel rest

/-- Python `str.replace(pat, rep)` on character lists: replace every
non-overlapping occurrence, scanning left to right.  The parser never calls
it with an empty pattern, for which this definition is the identity. -/
def replaceAll (pat rep s : List Char) : List Char :=
  replaceAllF pat rep s.length s

/-- Python `str.strip(chars)`: remove leading and trailing characters drawn
from `chars`. -/
def stripChars (chars s : List Char) : List Char :=
  ((s.dropWhile chars.contains).reverse.dropWhile chars.contains).reverse

/-- `re.sub(r'[<>:"/\\|?*]', '_', cid)`: the sanitization applied to a
content-id before it becomes part of a filename. -/
def sanitizeCid (s : List Char) : List Char :=
  s.map (fun c =>
    if (['<', '>', ':', '"', '/', '\\', '|', '?', '*'] : List Char).contains c
    then '_' else c)

/-- `filename.lower().rsplit('.', 1)[-1]`: the substring after the last
dot, or the whole string when there is none. -/
def extOf (f : List Char) : List Char :=
  ((f.reverse.takeWhile (fun c => ¬ c = '.')).reverse)

/-- The ASCII fragment of `bytes.decode(charset, errors='ignore')`. -/
def decodeIgnore (bs : List Nat) : List Char :=
  (bs.filter (fun b => b < 128)).map Char.ofNat

/-- A character terminating a `cid:` token in the residual scan, i.e. one
matched by `["'\s>]` in the regex `cid:([^"'\s>]+)`. -/
def isCidStop (c : Char) : Bool :=
  (['"', Char.ofNat 39, '>', ' ', '\t', '\n', '\x0d', '\x0b', '\x0c'] :
    List Char).contains c

/-- Worker for `findCids`; `fuel` bounds the number of characters still to
be scanned (each step consumes at least one character). -/
def findCidsF : Nat → List Char → List (List Char)
  | 0, _ => []
  | _ + 1, [] => []
  | fuel + 1, c :: rest =>
    if listStarts ("cid:".data) (c :: rest) then
      let after := (c :: rest).drop 4
      let tok := after.takeWhile (fun ch => !(isCidStop ch))
      if tok.isEmpty then findCidsF fuel rest
      else tok :: findCidsF fuel (after.drop tok.length)
    else findCidsF fuel rest

/-- `re.findall(r'cid:([^"\'\s>]+)', body_html)`: scan left to right; at
each position a match needs the literal `cid:` followed by at least one
non-stop character; scanning resumes after each match. -/
def findCids (s : List Char) : List (List Char) :=
  findCidsF s.length s

/-- `email_parser.detect_image_extension`: sniff the image format from the
payload's magic bytes, defaulting to `png`. -/
def detect_image_extension (data : List Nat) : String :=
  if data.length < 8 then "png"
  else if data.take 8 = [0x89, 0x50, 0x4e, 0x47, 0x0d, 0x0a, 0x1a, 0x0a] then "png"
  else if data.take 2 = [0xff, 0xd8] then "jpg"
  else if data.take 6 = [0x47, 0x49, 0x46, 0x38, 0x37, 0x61]
       ∨ data.take 6 = [0x47, 0x49, 0x46, 0x38, 0x39, 0x61] then "gif"
  else if data.take 4 = [0x52, 0x49, 0x46, 0x46] ∧ 12 < data.length
       ∧ (data.drop 8).take 4 = [0x57, 0x45, 0x42, 0x50] then "webp"
  else "png"

/-- A leaf of the message-part tree, with the header values
`parse_part` reads: `get_content_type()`, `str(get('Content-Disposition',
''))`, `get('Content-ID', '')`, the decoded `get_filename()`, and
`get_payload(decode=True)`.  `rawStr` is `str(part.get_payload())`, the
fallback used when the charset decode raises (e.g. a `None` payload). -/
structure LeafPart where
  content_type : List Char
  content_disposition : List Char
  content_id : List Char
  filename : Option (List Char)
  payload : Option (List Nat)
  rawStr : List Char
  deriving DecidableEq

/-- The message-part tree walked by `walk_parts`. -/
inductive Part where
  | leaf (l : LeafPart)
  | multi (subs : List Part)

/-- One collected inline image (`inline_images[cid]` value dict). -/
structure ImgInfo where
  filename : List Char
  content_type : List Char
  data : Option (List Nat)
  size : Nat

/-- One collected attachment dict; `id` is a generated uuid, modelled by a
deterministic supply `att-<n>`. -/
structure AttachmentRec where
  id : String
  filename : List Char
  size : Nat
  content_type : List Char
  data : Option (List Nat)

/-- The four accumulators of `parse_email_content` plus the uuid supply
counter for attachment ids. -/
structure ParseState where
  body : List Char
  body_html : List Char
  attachments : List AttachmentRec
  inline_images : List (List Char × ImgInfo)
  nextAttId : Nat

/-- Python dict assignment `inline_images[k] = v`: update in place when the
key exists, else append (dicts preserve insertion order). -/
def dictInsert (d : List (List Char × ImgInfo)) (k : List Char) (v : ImgInfo) :
    List (List Char × ImgInfo) :=
  if d.any (fun p => p.1 = k) then
    d.map (fun p => if p.1 = k then (k, v) else p)
  else d ++ [(k, v)]

/-- The image filename extensions recognized by `parse_part`. -/
def image_extensions : List (List Char) :=
  [".png".data, ".jpg".data, ".jpeg".data, ".gif".data, ".webp".data, ".bmp".data]

/-- `len(payload) if payload else 0` (an absent or empty payload counts
0). -/
def payloadSize (payload : Option (List Nat)) : Nat :=
  (payload.getD []).length

/-- The `jpg/png/...` extension-to-MIME table used to fix up an inline
image's content type from its filename. -/
def typeMap (ext : List Char) : Option (List Char) :=
  if ext = "png".data then some "image/png".data
  else if ext = "jpg".data then some "image/jpeg".data
  else if ext = "jpeg".data then some "image/jpeg".data
  else if ext = "gif".data then some "image/gif".data
  else if ext = "webp".data then some "image/webp".data
  else if ext = "bmp".data then some "image/bmp".data
  else none

/-- The tail of `parse_part` reached when no image branch returned: the
attachment check (`filename or 'attachment' in disposition`) followed by
the `text/html` / `text/plain` accumulation; anything else is ignored. -/
def parsePartTail (st : ParseState) (p : LeafPart) : ParseState :=
  if p.filename.isSome ∨ containsSub ("attachment".data) (lowerL p.content_disposition) then
    let fn := p.filename.getD ("unknown_file".data)
    { st with
      attachments := st.attachments ++
        [{ id := "att-" ++ toString st.nextAttId, filename := fn,
           size := payloadSize p.payload, content_type := p.content_type,
           data := p.payload }],
      nextAttId := st.nextAttId + 1 }
  else if p.content_type = "text/html".data ∨ p.content_type = "text/plain".data then
    let content := match p.payload with
      | some bs => decodeIgnore bs
      | none => p.rawStr
    if p.content_type = "text/html".data then
      { st with body_html := st.body_html ++ content }
    else
      { st with body := st.body ++ content }
  else st

/-- `parse_part` of `parse_email_content`: classify one leaf part.  The
image branches return early; the `inline` branch without a filename and a
failed third image condition fall through to `parsePartTail`, exactly as in
the source. -/
def parse_part (st : ParseState) (p : LeafPart) : ParseState :=
  let dispLower := lowerL p.content_disposition
  let is_image := listStarts ("image/".data) p.content_type
    || (match p.filename with
        | some f => image_extensions.any (fun e => endsWithL e (lowerL f))
        | none => false)
  if is_image then
    if ¬ p.content_id = [] then
      let cid := stripChars (['<', '>'] : List Char) p.content_id
      let actual_type :=
        match p.filename with
        | some f => (typeMap (extOf (lowerL f))).getD p.content_type
        | none => p.content_type
      let info : ImgInfo :=
        { filename := p.filename.getD
            (("image_" ++ toString (st.inline_images.length + 1)).data),
          content_type := actual_type, data := p.payload,
          size := payloadSize p.payload }
      { st with inline_images := dictInsert st.inline_images cid info }
    else if containsSub ("inline".data) dispLower then
      match p.filename with
      | some f =>
        let info : ImgInfo :=
          { filename := f, content_type := p.content_type,
            data := p.payload, size := payloadSize p.payload }
        { st with inline_images := dictInsert st.inline_images f info }
      | none => parsePartTail st p
    else if p.filename.isSome ∧ ¬ containsSub ("attachment".data) dispLower then
      match p.filename with
      | some f =>
        let info : ImgInfo :=
          { filename := f, content_type := p.content_type,
            data := p.payload, size := payloadSize p.payload }
        { st with inline_images := dictInsert st.inline_images f info }
      | none => st
    else parsePartTail st p
  else parsePartTail st p

mutual

/-- `walk_parts`: depth-first traversal calling `parse_part` on every
non-multipart node. -/
def walk_parts (st : ParseState) : Part → ParseState
  | .leaf l => parse_part st l
  | .multi subs => walkPartsList st subs

/-- The `for sub_part in msg_part.get_payload()` loop of `walk_parts`. -/
def walkPartsList (st : ParseState) : List Part → ParseState
  | [] => st
  | p :: rest => walkPartsList (walk_parts st p) rest

end

/-- Base URL under which materialized inline-image files are exposed. -/
def inlineUrlBase : List Char :=
  "http://127.0.0.1:5000/api/email/inline-images/".data

/-- Apostrophe character, for the `src='cid:...'` replacement form. -/
def squote : Char := Char.ofNat 39

/-- The inline-image materialization loop of `parse_email_content` (lines
197–211): for every collected image with truthy (non-empty) data, write
`<msg_uuid>_<sanitized cid>.<sniffed ext>` and substitute every
`cid:<cid>` occurrence (plus the quoted `src=` forms) in the html body with
the file's URL.  Files written are accumulated as (filename, bytes). -/
def materializeInline (msg_uuid : List Char)
    (imgs : List (List Char × ImgInfo)) (html : List Char) :
    List Char × List (List Char × List Nat) :=
  imgs.foldl (fun acc kv =>
    match kv.2.data with
    | some d =>
      if d.isEmpty then acc
      else
        let ext := (detect_image_extension d).data
        let fname := msg_uuid ++ "_".data ++ sanitizeCid kv.1 ++ ".".data ++ ext
        let url := inlineUrlBase ++ fname
        let h1 := replaceAll ("cid:".data ++ kv.1) url acc.1
        let h2 := replaceAll ("src=\"cid:".data ++ kv.1 ++ "\"".data)
          ("src=\"".data ++ url ++ "\"".data) h1
        let h3 := replaceAll (("src=".data ++ [squote] ++ "cid:".data) ++ kv.1 ++ [squote])
          (("src=".data ++ [squote]) ++ url ++ [squote]) h2
        (h3, acc.2 ++ [(fname, d)])
    | none => acc) (html, [])

/-- The residual-`cid:` fuzzy pass (lines 213–229): collect the `cid:`
tokens still present, and for each one substitute the URL of the first
stored image whose key matches case-insensitively as a substring (either
direction).  The Python write of a `None` payload would raise; no stored
image reaching this pass in the verified scenarios has one, and it is
modelled as an empty write. -/
def fuzzyResolve (msg_uuid : List Char) (imgs : List (List Char × ImgInfo))
    (html : List Char) (files : List (List Char × List Nat)) :
    List Char × List (List Char × List Nat) :=
  (findCids html).foldl (fun acc rcid =>
    match imgs.find? (fun p =>
        containsSub (lowerL rcid) (lowerL p.1) || containsSub (lowerL p.1) (lowerL rcid)) with
    | some kv =>
      let d := kv.2.data.getD []
      let ext := (detect_image_extension d).data
      let fname := msg_uuid ++ "_".data ++ sanitizeCid kv.1 ++ ".".data ++ ext
      let url := inlineUrlBase ++ fname
      (replaceAll ("cid:".data ++ rcid) url acc.1, acc.2 ++ [(fname, d)])
    | none => acc) (html, files)

/-- `email_parser.parse_email_content`: walk the part tree, materialize
inline images, run the fuzzy residual pass.  Returns `(body, body_html,
attachments)` plus the list of files written to `INLINE_IMAGES_DIR`. -/
def parse_email_content (msg : Part) (msg_uuid : List Char) :
    List Char × List Char × List AttachmentRec × List (List Char × List Nat) :=
  let st := walk_parts
    { body := [], body_html := [], attachments := [], inline_images := [],
      nextAttId := 0 } msg
  let m := materializeInline msg_uuid st.inline_images st.body_html
  let f := fuzzyResolve msg_uuid st.inline_images m.1 m.2
  (st.body, f.1, st.attachments, f.2)

/-! ## Auxiliary definitions used by the verification scenarios -/

/-- A loop iteration whose `connect()` fails — e.g. because `login` raised
an authentication error, which `connect` swallows, returning `False`
(lines 199–201). -/
def authFailIter : IterIn :=
  { connectOk := false, searchRes := none, fetchOk := fun _ => false,
    wait := WaitOutcome.idleNotifies [] }

/-- A loop iteration whose `connect()` succeeds and whose post-connect
SEARCH — were it issued — would return `sr`, every fetch succeeding; the
IDLE wait cycle then expires without notifications. -/
def connectOkIter (sr : Option (List Nat)) : IterIn :=
  { connectOk := true, searchRes := sr, fetchOk := fun _ => true,
    wait := WaitOutcome.idleNotifies [] }

/-- One successful-fetch batch as seen by the SEARCH block: the uid list
the server returned and which uids `fetch_new_email` succeeds on. -/
structure FetchBatch where
  uids : List Nat
  fetchOk : Nat → Bool

/-- Successive executions of the SEARCH block of `idle_loop` within one
session: each batch runs `processNewUids` from the cursor the previous
batch left. -/
def runBatches (c : Nat) : List FetchBatch → Nat × List Nat
  | [] => (c, [])
  | b :: rest =>
    let r := processNewUids c b.uids b.fetchOk
    let r2 := runBatches r.1 rest
    (r2.1, r.2 ++ r2.2)

/-- The server contract of `UID SEARCH UID cursor+1:*` for a sequence of
batches: each batch's uid list is strictly ascending and lies strictly
above the cursor at the time the search is issued. -/
def BatchesOk : Nat → List FetchBatch → Prop
  | _, [] => True
  | c, b :: rest =>
    b.uids.Pairwise (· < ·) ∧ (∀ u ∈ b.uids, c < u) ∧
    BatchesOk (processNewUids c b.uids b.fetchOk).1 rest

/-- The PNG magic bytes `\x89PNG\r\n\x1a\n`. -/
def pngMagic : List Nat := [0x89, 0x50, 0x4e, 0x47, 0x0d, 0x0a, 0x1a, 0x0a]

/-- The html leaf of the C7 scenario: an ASCII body whose `src` attribute
references `cid:img1`. -/
def htmlLeafC7 : LeafPart :=
  { content_type := "text/html".data, content_disposition := [],
    content_id := [], filename := none,
    payload := some (("<p>hello</p><img src=\"cid:img1\">".data).map Char.toNat),
    rawStr := [] }

/-- The inline PNG leaf of the C7 scenario: content-id `<img1>` and a
payload beginning with the PNG magic bytes. -/
def imgLeafC7 (rest : List Nat) : LeafPart :=
  { content_type := "image/png".data, content_disposition := [],
    content_id := "<img1>".data, filename := none,
    payload := some (pngMagic ++ rest), rawStr := [] }

/-- The C7 multipart message. -/
def msgC7 (rest : List Nat) : Part :=
  Part.multi [Part.leaf htmlLeafC7, Part.leaf (imgLeafC7 rest)]

/-- The html body the parser produces for the C7 message: the `cid:img1`
reference replaced by the materialized file's URL. -/
def htmlOutC7 : List Char :=
  ("<p>hello</p><img src=\"" ++
    "http://127.0.0.1:5000/api/email/inline-images/m1_img1.png\">").data

mutual

/-- The leaves of a part tree, in the depth-first order `walk_parts`
visits them. -/
def leavesOf : Part → List LeafPart
  | .leaf l => [l]
  | .multi subs => leavesOfList subs

/-- Leaves of a list of subtrees, left to right. -/
def leavesOfList : List Part → List LeafPart
  | [] => []
  | p :: rest => leavesOf p ++ leavesOfList rest

end

/-- The decoded text a `text/*` leaf contributes: the charset decode of the
payload, or the `str(part.get_payload())` fallback when the payload is
absent. -/
def leafTextContent (p : LeafPart) : List Char :=
  match p.payload with
  | some bs => decodeIgnore bs
  | none => p.rawStr

/-- Concatenation of the text contributed by all leaves of content type
`t`, in traversal order. -/
def textConcat (t : List Char) (ls : List LeafPart) : List Char :=
  ((ls.filter (fun p => p.content_type = t)).map leafTextContent).flatten

/-- A leaf that reaches the text-accumulation branch whenever its content
type is textual: no filename and no `attachment` disposition. -/
@[reducible]
def PlainTextLeaf (p : LeafPart) : Prop :=
  p.filename = none ∧
  containsSub ("attachment".data) (lowerL p.content_disposition) = false

/-- The empty accumulator `parse_email_content` starts from. -/
def initParseState : ParseState :=
  { body := [], body_html := [], attachments := [], inline_images := [],
    nextAttId := 0 }

/-- The plain-text leaf of the C8 scenario. -/
def plainLeafC8 : LeafPart :=
  { content_type := "text/plain".data, content_disposition := [],
    content_id := [], filename := none,
    payload := some (("hello plain".data).map Char.toNat), rawStr := [] }

/-- The html leaf of the C8 scenario. -/
def htmlLeafC8 : LeafPart :=
  { content_type := "text/html".data, content_disposition := [],
    content_id := [], filename := none,
    payload := some (("<b>hello html</b>".data).map Char.toNat),
    rawStr := [] }

/-- The C8 multipart message: one `text/plain` and one `text/html` part. -/
def msgC8 : Part :=
  Part.multi [Part.leaf plainLeafC8, Part.leaf htmlLeafC8]

/-- Concrete empty database for the C1 witness. -/
def dbC1 : EmailDB := { messages := [], attachments := [] }

/-- First concrete message row for the C1 witness. -/
def m1C1 : EmailMessageRow := { id := "id1", account_id := "acc", uid := "42" }

/-- Second concrete message row for the C1 witness: fresh local id, same
`(account_id, uid)` key. -/
def m2C1 : EmailMessageRow := { id := "id2", account_id := "acc", uid := "42" }

/-- Attachments parsed alongside the first copy of the message. -/
def atts1C1 : List AttachmentInfo :=
  [{ id := "a1", filename := "f.txt", content_type := "text/plain", size := 3 }]

/-- Attachments parsed alongside the duplicate copy. -/
def atts2C1 : List AttachmentInfo :=
  [{ id := "a2", filename := "g.png", content_type := "image/png", size := 4 }]

/-! ## Theorems -/

/-- C1: inserting two messages with the same `(account_id, uid)` key
through the persistence layer leaves exactly one stored message row and
exactly one set of attachment rows — the second insert is a no-op (returns
`false`, not an error, and the database is unchanged), and attachment rows
exist only for the insert that took effect. -/
theorem persist_dedup (db : EmailDB) (m1 m2 : EmailMessageRow)
    (atts1 atts2 : List AttachmentInfo)
    (hacct : m2.account_id = m1.account_id) (huid : m2.uid = m1.uid)
    (hfresh : db.messages.any (fun r =>
      r.id = m1.id ∨ (r.account_id = m1.account_id ∧ r.uid = m1.uid)) = false) :
    persistMessage (persistMessage db m1 atts1).1 m2 atts2 =
      ((persistMessage db m1 atts1).1, false) ∧
    countKey (persistMessage db m1 atts1).1.messages m1.account_id m1.uid = 1 ∧
    (persistMessage db m1 atts1).1.attachments =
      db.attachments ++ atts1.map (fun a =>
        { id := a.id, message_id := m1.id, filename := a.filename,
          content_type := a.content_type, size := a.size }) := by
  have hfresh' := List.any_eq_false.mp hfresh
  have hdb1 : persistMessage db m1 atts1 =
      ({ messages := db.messages ++ [m1],
         attachments := db.attachments ++ atts1.map (fun a =>
           { id := a.id, message_id := m1.id, filename := a.filename,
             content_type := a.content_type, size := a.size }) }, true) := by
    simp only [persistMessage, insertOrIgnoreMessage, hfresh, if_false,
      Bool.false_eq_true]
    simp
  refine ⟨?_, ?_, ?_⟩
  · rw [hdb1]
    simp only [persistMessage, insertOrIgnoreMessage, List.any_append,
      List.any_cons, List.any_nil, hacct, huid]
    simp
  · rw [hdb1]
    simp only [countKey, List.filter_append, List.length_append]
    have h0 : db.messages.filter
        (fun r => decide (r.account_id = m1.account_id ∧ r.uid = m1.uid)) = [] := by
      rw [List.filter_eq_nil_iff]
      intro r hr
      have := hfresh' r hr
      simp only [decide_eq_true_eq] at this ⊢
      tauto
    rw [h0]
    simp
  · rw [hdb1]

/-- Witness for C1 at a concrete database and message pair. -/
theorem persist_dedup_witness :
    persistMessage (persistMessage dbC1 m1C1 atts1C1).1 m2C1 atts2C1 =
      ((persistMessage dbC1 m1C1 atts1C1).1, false) ∧
    countKey (persistMessage dbC1 m1C1 atts1C1).1.messages
      m1C1.account_id m1C1.uid = 1 ∧
    (persistMessage dbC1 m1C1 atts1C1).1.attachments =
      dbC1.attachments ++ atts1C1.map (fun a =>
        { id := a.id, message_id := m1C1.id, filename := a.filename,
          content_type := a.content_type, size := a.size }) :=
  persist_dedup dbC1 m1C1 m2C1 atts1C1 atts2C1 (by decide) (by decide) (by decide)

/-- C2 counterexample: with `connect()` failing on every attempt (as it
does when `login` raises an authentication error, which `connect` swallows
and reports as `False`), the session does not reach `error` after one
attempt — it retries, and `error` is only emitted after all five attempts,
so an authentication failure consumes five retry attempts, not at most
one. -/
theorem auth_failure_retry_counterexample :
    (idle_loop initListener.start (List.replicate 5 authFailIter)).2 =
      [Emit.status "connecting", Emit.status "connecting",
       Emit.status "connecting", Emit.status "connecting",
       Emit.status "connecting", Emit.status "error", Emit.status "stopped"] ∧
    Emit.status "error" ∉ (idle_loop initListener.start [authFailIter]).2 := by
  decide

/-- Helper: a run of consecutive failed connects under retry budget `rc`
emits one `connecting` per remaining attempt and then `error`, leaving the
state untouched and breaking out of the loop. -/
theorem idleLoopAux_connect_fail :
    ∀ (trace : List IterIn) (st : ListenerState) (rc : Nat),
    st.running = true → st.idle_conn = false →
    (∀ ev ∈ trace, ev.connectOk = false) → rc < max_retries →
    max_retries - rc ≤ trace.length →
    idleLoopAux st rc trace =
      (st, List.replicate (max_retries - rc) (Emit.status "connecting") ++
        [Emit.status "error"], true) := by
  intro trace
  induction trace with
  | nil =>
    intro st rc _ _ _ h4 h5
    simp only [List.length_nil, Nat.le_zero] at h5
    omega
  | cons ev rest ih =>
    intro st rc h1 h2 h3 h4 h5
    have hev : ev.connectOk = false := h3 ev (by simp)
    simp only [idleLoopAux, h1, if_true, h2, Bool.false_eq_true, if_false, hev]
    by_cases hc : max_retries ≤ rc + 1
    · rw [if_pos hc]
      have he : max_retries - rc = 1 := by
        simp only [max_retries] at h4 hc ⊢
        omega
      rw [he]
      simp
    · rw [if_neg hc]
      rw [ih st (rc + 1) h1 h2 (fun e he => h3 e (by simp [he])) (by omega)
        (by simp only [List.length_cons] at h5 ⊢; omega)]
      have he : max_retries - rc = (max_retries - (rc + 1)) + 1 := by omega
      rw [he, List.replicate_succ]
      simp

/-- C2 (amended): an authentication failure during connect is not
distinguished from any other connect failure — `connect()` swallows the
exception and returns `False`, and the loop retries with backoff; the
session reaches `error` only after `max_retries` (5) consecutive failed
attempts, followed by the final `stopped`. -/
theorem auth_failure_goes_through_retry_loop (st : ListenerState)
    (trace : List IterIn) (hrun : st.running = true)
    (hconn : st.idle_conn = false)
    (hfail : ∀ ev ∈ trace, ev.connectOk = false)
    (hlen : max_retries ≤ trace.length) :
    idle_loop st trace =
      (st, List.replicate max_retries (Emit.status "connecting") ++
        [Emit.status "error", Emit.status "stopped"]) := by
  unfold idle_loop
  rw [idleLoopAux_connect_fail trace st 0 hrun hconn hfail
    (by simp [max_retries]) (by simpa using hlen)]
  simp

/-- Witness for the amended C2 at a concrete five-failure trace. -/
theorem auth_failure_goes_through_retry_loop_witness :
    idle_loop initListener.start (List.replicate 5 authFailIter) =
      (initListener.start,
        List.replicate max_retries (Emit.status "connecting") ++
          [Emit.status "error", Emit.status "stopped"]) :=
  auth_failure_goes_through_retry_loop initListener.start
    (List.replicate 5 authFailIter) (by decide) (by decide)
    (by decide) (by decide)

/-- Helper: the notification loop does nothing when the cursor is null. -/
theorem processNotifies_none (ns : List (Option (List Nat))) (f : Nat → Bool) :
    processNotifies none ns f = (none, []) := by
  have key : ∀ (l : List (Option (List Nat))) (ems : List Emit),
      l.foldl (fun acc sr =>
        let r := searchAndProcess acc.1 sr f
        (r.1, acc.2 ++ r.2.map Emit.newEmail)) (none, ems) = (none, ems) := by
    intro l
    induction l with
    | nil => intro ems; rfl
    | cons sr rest ih =>
      intro ems
      simp only [List.foldl_cons, searchAndProcess, List.map_nil,
        List.append_nil]
      exact ih ems
  exact key ns []

/-- Helper: with a null cursor, one connected loop iteration issues no
fetch: the cursor stays null and no `new-message` callback fires. -/
theorem iterCore_none_cursor (st : ListenerState) (rc : Nat) (ev : IterIn)
    (h : st.last_processed_uid = none) :
    (iterCore st rc ev).1.last_processed_uid = none ∧
    ∀ u, Emit.newEmail u ∉ (iterCore st rc ev).2.2.1 := by
  unfold iterCore
  rw [h]
  cases hw : ev.wait <;>
    cases hsi : st.supports_idle <;>
      simp [searchAndProcess, processNotifies_none, hsi, max_retries] <;>
        by_cases h4 : (4 : Nat) ≤ rc <;> simp [h4]

/-- Helper: the whole loop never sets a null cursor and never emits a
`new-message` event from a null cursor. -/
theorem idleLoopAux_none_cursor :
    ∀ (trace : List IterIn) (st : ListenerState) (rc : Nat),
    st.last_processed_uid = none →
    (idleLoopAux st rc trace).1.last_processed_uid = none ∧
    ∀ u, Emit.newEmail u ∉ (idleLoopAux st rc trace).2.1 := by
  intro trace
  induction trace with
  | nil =>
    intro st rc h
    exact ⟨h, by simp [idleLoopAux]⟩
  | cons ev rest ih =>
    intro st rc h
    obtain ⟨run, conn, si, cur, oc, th⟩ := st
    dsimp only at h
    subst h
    cases run
    · constructor <;> simp [idleLoopAux]
    · cases conn
      · cases hok : ev.connectOk
        · by_cases hmax : max_retries ≤ rc + 1
          · constructor <;> simp [idleLoopAux, hok, hmax]
          · obtain ⟨g1, g2⟩ :=
              ih (ListenerState.mk true false si none oc th) (rc + 1) rfl
            constructor <;> simp [idleLoopAux, hok, hmax, g1]
            intro u
            exact fun hmem => g2 u hmem
        · have hcore := iterCore_none_cursor
            (ListenerState.mk true true si none oc th) 0 ev rfl
          by_cases hbrk :
            (iterCore (ListenerState.mk true true si none oc th) 0 ev).2.2.2 = true
          · constructor <;> simp [idleLoopAux, hok, hbrk, hcore.1]
            intro u
            exact fun hmem => hcore.2 u hmem
          · obtain ⟨g1, g2⟩ := ih
              (iterCore (ListenerState.mk true true si none oc th) 0 ev).1
              (iterCore (ListenerState.mk true true si none oc th) 0 ev).2.1
              hcore.1
            constructor <;> simp [idleLoopAux, hok, hbrk, g1]
            intro u
            exact ⟨fun hmem => hcore.2 u hmem, fun hmem => g2 u hmem⟩
      · have hcore := iterCore_none_cursor
          (ListenerState.mk true true si none oc th) rc ev rfl
        by_cases hbrk :
          (iterCore (ListenerState.mk true true si none oc th) rc ev).2.2.2 = true
        · constructor <;> simp [idleLoopAux, hbrk, hcore.1]
          intro u
          exact fun hmem => hcore.2 u hmem
        · obtain ⟨g1, g2⟩ := ih
            (iterCore (ListenerState.mk true true si none oc th) rc ev).1
            (iterCore (ListenerState.mk true true si none oc th) rc ev).2.1
            hcore.1
          constructor <;> simp [idleLoopAux, hbrk, g1]
          intro u
          exact ⟨fun hmem => hcore.2 u hmem, fun hmem => g2 u hmem⟩

/-- C3: evaluation at the failing input.  With a null cursor (the state of
every fresh listener — nothing in `idle_loop` ever assigns
`last_processed_uid` when it is `None`), a successful connect performs no
post-connect fetch at all: no matter what uids the server would report, no
`new-message` callback ever fires and the cursor stays null for the
session's whole lifetime, contradicting the claimed fetch of all
identifiers above the (null) cursor. -/
theorem null_cursor_never_fetches (st : ListenerState) (trace : List IterIn)
    (h : st.last_processed_uid = none) :
    (idle_loop st trace).1.last_processed_uid = none ∧
    ∀ u, Emit.newEmail u ∉ (idle_loop st trace).2 := by
  obtain ⟨h1, h2⟩ := idleLoopAux_none_cursor trace st 0 h
  unfold idle_loop
  rcases hI : idleLoopAux st 0 trace with ⟨st', ems, exited⟩
  rw [hI] at h1 h2
  simp only at h1 h2
  refine ⟨h1, fun u => ?_⟩
  have := h2 u
  cases exited <;> simp_all

/-- Witness for C3: a fresh started listener connecting successfully while
the server reports uids 1–3 ingests nothing. -/
theorem null_cursor_never_fetches_witness :
    (idle_loop initListener.start
      [connectOkIter (some [1, 2, 3])]).1.last_processed_uid = none ∧
    Emit.newEmail 2 ∉
      (idle_loop initListener.start [connectOkIter (some [1, 2, 3])]).2 :=
  ⟨(null_cursor_never_fetches initListener.start
      [connectOkIter (some [1, 2, 3])] rfl).1,
   (null_cursor_never_fetches initListener.start
      [connectOkIter (some [1, 2, 3])] rfl).2 2⟩

/-- C9 counterexample: a session whose five connect attempts all fail emits
`error` and then emits one more status transition, the trailing
unconditional `stopped` of line 386 — so `error` is not terminal for the
emissions of the instance. -/
theorem error_terminal_counterexample :
    (idle_loop initListener.start (List.replicate 5 authFailIter)).2 =
      [Emit.status "connecting", Emit.status "connecting",
       Emit.status "connecting", Emit.status "connecting",
       Emit.status "connecting", Emit.status "error", Emit.status "stopped"] ∧
    ((idle_loop initListener.start (List.replicate 5 authFailIter)).2[5]? =
      some (Emit.status "error") ∧
     (idle_loop initListener.start (List.replicate 5 authFailIter)).2[6]? =
      some (Emit.status "stopped")) := by
  decide

/-- Helper: the notification loop emits only `new-message` events, never a
status transition. -/
theorem processNotifies_no_status (c : Option Nat)
    (ns : List (Option (List Nat))) (f : Nat → Bool) (s : String) :
    Emit.status s ∉ (processNotifies c ns f).2 := by
  have key : ∀ (l : List (Option (List Nat))) (acc : Option Nat × List Emit),
      Emit.status s ∉ acc.2 →
      Emit.status s ∉ (l.foldl (fun acc sr =>
        let r := searchAndProcess acc.1 sr f
        (r.1, acc.2 ++ r.2.map Emit.newEmail)) acc).2 := by
    intro l
    induction l with
    | nil => intro acc h; exact h
    | cons sr rest ih =>
      intro acc h
      refine ih _ ?_
      simp only [List.mem_append, List.mem_map]
      rintro (hm | ⟨u, _, hu⟩)
      · exact h hm
      · exact Emit.noConfusion hu
  exact key ns (c, []) (by simp)

/-- Helper: `new-message` events are never status transitions. -/
theorem status_not_mem_newEmail (s : String) (l : List Nat) :
    Emit.status s ∉ l.map Emit.newEmail := by
  simp only [List.mem_map]
  rintro ⟨u, _, hu⟩
  exact Emit.noConfusion hu

/-- Helper: one loop iteration emits `error` only when it breaks, and then
`error` is its very last emission. -/
theorem iterCore_error_structure (st : ListenerState) (rc : Nat) (ev : IterIn) :
    ((iterCore st rc ev).2.2.2 = true →
      ∃ pre, (iterCore st rc ev).2.2.1 = pre ++ [Emit.status "error"] ∧
        Emit.status "error" ∉ pre) ∧
    ((iterCore st rc ev).2.2.2 = false →
      Emit.status "error" ∉ (iterCore st rc ev).2.2.1) := by
  unfold iterCore
  cases hw : ev.wait
  case outerErr =>
    obtain ⟨c1, mails⟩ :
        Option Nat × List Nat :=
      searchAndProcess st.last_processed_uid ev.searchRes ev.fetchOk
    cases hsi : st.supports_idle <;>
      by_cases h4 : max_retries ≤ rc + 1 <;>
        constructor <;> intro hb <;> dsimp only at hb ⊢ <;>
          first
            | (rw [if_pos h4] at hb ⊢
               exact ⟨Emit.status "listening" ::
                 (mails.map Emit.newEmail ++ [Emit.status "reconnecting"]),
                 by simp, by simp [status_not_mem_newEmail]⟩)
            | (rw [if_pos h4] at hb
               simp at hb
               done)
            | (rw [if_neg h4] at hb
               simp at hb
               done)
            | (rw [if_neg h4]
               simp [status_not_mem_newEmail]
               done)
            | (simp [h4, status_not_mem_newEmail]
               done)
  all_goals cases hsi : st.supports_idle <;>
    constructor <;> intro hb <;>
      simp_all [processNotifies_no_status, status_not_mem_newEmail]

/-- Helper: whenever the loop body has emitted `error`, it is the last
emission and the loop has exited via `break`. -/
theorem idleLoopAux_error_structure :
    ∀ (trace : List IterIn) (st : ListenerState) (rc : Nat),
    Emit.status "error" ∈ (idleLoopAux st rc trace).2.1 →
    ∃ pre, (idleLoopAux st rc trace).2.1 = pre ++ [Emit.status "error"] ∧
      Emit.status "error" ∉ pre ∧ (idleLoopAux st rc trace).2.2 = true := by
  intro trace
  induction trace with
  | nil =>
    intro st rc h
    simp [idleLoopAux] at h
  | cons ev rest ih =>
    intro st rc h
    obtain ⟨run, conn, si, cur, oc, th⟩ := st
    cases run
    · simp [idleLoopAux] at h
    · cases conn
      · cases hok : ev.connectOk
        · by_cases hmax : max_retries ≤ rc + 1
          · refine ⟨[Emit.status "connecting"], ?_, by simp, ?_⟩ <;>
              simp [idleLoopAux, hok, hmax]
          · simp only [idleLoopAux, hok, hmax] at h ⊢
            simp at h ⊢
            obtain ⟨pre, hp, hn, hx⟩ := ih _ _ h
            exact ⟨Emit.status "connecting" :: pre,
              by simp [hp], by simp [hn], hx⟩
        · set A := ListenerState.mk true true si cur oc th with hA
          have hcore := iterCore_error_structure A 0 ev
          by_cases hbrk : (iterCore A 0 ev).2.2.2 = true
          · obtain ⟨pre, hp, hn⟩ := hcore.1 hbrk
            refine ⟨Emit.status "connecting" :: pre, ?_, by simp [hn], ?_⟩ <;>
              simp [idleLoopAux, hok, hbrk, hp]
          · have hne := hcore.2 (by simpa using hbrk)
            simp only [idleLoopAux, hok, hbrk] at h ⊢
            simp at h ⊢
            rcases h with h | h
            · exact absurd h hne
            · obtain ⟨pre, hp, hn, hx⟩ := ih _ _ h
              exact ⟨Emit.status "connecting" ::
                ((iterCore A 0 ev).2.2.1 ++ pre),
                by simp [hp], by simp [hn, hne], hx⟩
      · set A := ListenerState.mk true true si cur oc th with hA
        have hcore := iterCore_error_structure A rc ev
        by_cases hbrk : (iterCore A rc ev).2.2.2 = true
        · obtain ⟨pre, hp, hn⟩ := hcore.1 hbrk
          refine ⟨pre, ?_, hn, ?_⟩ <;> simp [idleLoopAux, hbrk, hp]
        · have hne := hcore.2 (by simpa using hbrk)
          simp only [idleLoopAux, hbrk] at h ⊢
          simp at h ⊢
          rcases h with h | h
          · exact absurd h hne
          · obtain ⟨pre, hp, hn, hx⟩ := ih _ _ h
            exact ⟨(iterCore A rc ev).2.2.1 ++ pre,
              by simp [hp], by simp [hn, hne], hx⟩

/-- C9 (amended): `error` is not terminal in the emission stream — when the
loop exits after emitting `error`, exactly one further transition follows,
the final `stopped`, and nothing is emitted after it: an `error` at
position `i` means the stream has length `i + 2` and position `i + 1`
holds `stopped`. -/
theorem error_then_single_stopped (st : ListenerState) (trace : List IterIn)
    (i : Nat)
    (h : (idle_loop st trace).2[i]? = some (Emit.status "error")) :
    (idle_loop st trace).2.length = i + 2 ∧
    (idle_loop st trace).2[i + 1]? = some (Emit.status "stopped") := by
  have hmem : Emit.status "error" ∈ (idle_loop st trace).2 := by
    obtain ⟨hlt, heq⟩ := List.getElem?_eq_some.mp h
    rw [← heq]
    exact List.getElem_mem hlt
  rcases hL : idleLoopAux st 0 trace with ⟨st', ems, exited⟩
  have hloop : (idle_loop st trace).2 =
      ems ++ (if exited then [Emit.status "stopped"] else []) := by
    simp [idle_loop, hL]
  by_cases hexmem : Emit.status "error" ∈ ems
  · obtain ⟨pre, hp, hn, hx⟩ := idleLoopAux_error_structure trace st 0 (by
      rw [hL]; exact hexmem)
    rw [hL] at hp hx
    simp only at hp hx
    subst hx
    rw [hloop, hp] at h ⊢
    simp only [eq_self_iff_true, if_true, List.append_assoc,
      List.singleton_append] at h ⊢
    have hi : i = pre.length := by
      rcases Nat.lt_trichotomy i pre.length with hlt | heq | hgt
      · rw [List.getElem?_append_left hlt] at h
        obtain ⟨hlt2, heq2⟩ := List.getElem?_eq_some.mp h
        exact absurd (heq2 ▸ List.getElem_mem hlt2) hn
      · exact heq
      · have h2 : pre.length ≤ i := Nat.le_of_lt hgt
        rw [List.getElem?_append_right h2] at h
        rcases Nat.lt_trichotomy (i - pre.length) 1 with hlt1 | heq1 | hgt1
        · omega
        · rw [heq1] at h
          simp at h
        · rw [List.getElem?_eq_none (by
            simp only [List.length_cons, List.length_nil]
            omega)] at h
          exact Option.noConfusion h
    subst hi
    refine ⟨?_, ?_⟩
    · first
        | rfl
        | (simp only [List.length_append, List.length_cons, List.length_nil]
           omega)
        | (simp only [List.length_append, List.length_cons, List.length_nil])
        | omega
    · rw [List.getElem?_append_right (by omega)]
      have h1 : pre.length + 1 - pre.length = 1 := by omega
      rw [h1]
      simp
  · exfalso
    rw [hloop] at hmem
    rcases List.mem_append.mp hmem with hm | hm
    · exact hexmem hm
    · cases exited <;> simp_all

/-- Witness for the amended C9 at the concrete five-failure trace. -/
theorem error_then_single_stopped_witness :
    (idle_loop initListener.start (List.replicate 5 authFailIter)).2.length =
      5 + 2 ∧
    (idle_loop initListener.start (List.replicate 5 authFailIter)).2[5 + 1]? =
      some (Emit.status "stopped") :=
  error_then_single_stopped initListener.start (List.replicate 5 authFailIter)
    5 (by decide)

/-- Helper: one loop iteration never touches the `running` flag. -/
theorem iterCore_running (st : ListenerState) (rc : Nat) (ev : IterIn) :
    (iterCore st rc ev).1.running = st.running := by
  unfold iterCore
  cases hw : ev.wait <;> cases hsi : st.supports_idle <;>
    by_cases h4 : max_retries ≤ rc + 1 <;>
      simp [hsi, h4]

/-- Helper: the whole loop never touches the `running` flag. -/
theorem idleLoopAux_running :
    ∀ (trace : List IterIn) (st : ListenerState) (rc : Nat),
    (idleLoopAux st rc trace).1.running = st.running := by
  intro trace
  induction trace with
  | nil => intro st rc; simp [idleLoopAux]
  | cons ev rest ih =>
    intro st rc
    obtain ⟨run, conn, si, cur, oc, th⟩ := st
    cases run
    · simp [idleLoopAux]
    · cases conn
      · cases hok : ev.connectOk
        · by_cases hmax : max_retries ≤ rc + 1 <;>
            simp [idleLoopAux, hok, hmax, ih]
        · by_cases hbrk :
            (iterCore (ListenerState.mk true true si cur oc th) 0 ev).2.2.2
              = true <;>
            simp [idleLoopAux, hok, hbrk, ih, iterCore_running]
      · by_cases hbrk :
          (iterCore (ListenerState.mk true true si cur oc th) rc ev).2.2.2
            = true <;>
          simp [idleLoopAux, hbrk, ih, iterCore_running]

/-- C10: the `running` flag is written only by `start()` (to true) and
`stop()` (to false), never by the loop itself; hence after the loop of a
started listener terminates on its own (e.g. retry exhaustion, status
`error`), `is_listening` still reports `True` and the status snapshot still
reports `listening` until `stop` is called. -/
theorem running_flag_only_start_stop :
    (∀ (st : ListenerState) (rc : Nat) (trace : List IterIn),
      (idleLoopAux st rc trace).1.running = st.running) ∧
    (∀ st : ListenerState,
      st.start.running = true ∧ st.stop.running = false) ∧
    (∀ (accountId : String) (trace : List IterIn),
      is_listening
        ⟨[(accountId, (idle_loop initListener.start trace).1)]⟩ accountId
        = true ∧
      get_status
        ⟨[(accountId, (idle_loop initListener.start trace).1)]⟩ accountId
        = "listening") := by
  refine ⟨fun st rc trace => idleLoopAux_running trace st rc, ?_, ?_⟩
  · intro st
    constructor
    · by_cases h : st.running = true <;> simp [ListenerState.start, h]
    · simp [ListenerState.stop]
  · intro accountId trace
    have hrun : (idle_loop initListener.start trace).1.running = true := by
      have h1 := idleLoopAux_running trace initListener.start 0
      simp only [idle_loop]
      rcases hL : idleLoopAux initListener.start 0 trace with ⟨st', ems, ex⟩
      rw [hL] at h1
      simpa [initListener, ListenerState.start] using h1
    constructor
    · simp [is_listening, ManagerState.lookup, hrun]
    · simp [get_status, ManagerState.lookup, hrun]

/-- C4: starting a listener for an account id is idempotent — with a
listener registered, a second `start_listening` returns `True` without
touching the registry; starting fresh registers exactly one entry whose
listener is running with exactly one spawned execution unit; and both
`start_listening` and `stop_listening` preserve key-uniqueness of the
registry. -/
theorem start_listening_idempotent (m : ManagerState) (accountId : String)
    (h : m.lookup accountId = none) :
    start_listening (start_listening m accountId true).1 accountId true =
      ((start_listening m accountId true).1, true) ∧
    (start_listening m accountId true).1.lookup accountId =
      some initListener.start ∧
    ((start_listening m accountId true).1.listeners.filter
      (fun p => p.1 = accountId)).length = 1 ∧
    initListener.start.running = true ∧
    initListener.start.threads = 1 ∧
    (∀ (m' : ManagerState) (id : String) (b : Bool),
      (m'.listeners.map Prod.fst).Nodup →
      (((start_listening m' id b).1.listeners.map Prod.fst).Nodup ∧
       ((stop_listening m' id).listeners.map Prod.fst).Nodup)) := by
  have hfind : m.listeners.find? (fun p => p.1 = accountId) = none := by
    simpa [ManagerState.lookup] using h
  have hall := List.find?_eq_none.mp hfind
  have hm1 : start_listening m accountId true =
      ({ listeners := m.listeners ++ [(accountId, initListener.start)] },
        true) := by
    simp [start_listening, ManagerState.lookup, hfind]
  refine ⟨?_, ?_, ?_, by decide, by decide, ?_⟩
  · rw [hm1]
    simp [start_listening, ManagerState.lookup, List.find?_append, hfind]
  · rw [hm1]
    simp [ManagerState.lookup, List.find?_append, hfind]
  · rw [hm1]
    simp only [List.filter_append]
    have h0 : m.listeners.filter (fun p => decide (p.1 = accountId)) = [] := by
      rw [List.filter_eq_nil_iff]
      intro p hp
      simpa using hall p hp
    rw [h0]
    simp
  · intro m' id b hnd
    constructor
    · by_cases hreg : (m'.lookup id).isSome
      · simp [start_listening, hreg, hnd]
      · cases b
        · simp [start_listening, hreg, hnd]
        · simp only [start_listening, hreg, Bool.false_eq_true, if_false,
            if_true]
          simp only [List.map_append, List.map_cons, List.map_nil]
          rw [List.nodup_append]
          refine ⟨hnd, by simp, ?_⟩
          intro a ha
          simp only [List.mem_singleton]
          intro hcontra
          subst hcontra
          have hfind' : m'.listeners.find? (fun p => p.1 = a) = none := by
            rcases hf : m'.listeners.find? (fun p => p.1 = a) with _ | p
            · exact hf
            · exact absurd (by simp [ManagerState.lookup, hf]) hreg
          obtain ⟨p, hp, hpa⟩ := List.mem_map.mp ha
          have := List.find?_eq_none.mp hfind' p hp
          simp [hpa] at this
    · unfold stop_listening
      rcases m'.lookup id with _ | l
      · exact hnd
      · exact List.Nodup.sublist
          (List.Sublist.map Prod.fst (List.filter_sublist _)) hnd

/-- Witness for C4 at an empty registry. -/
theorem start_listening_idempotent_witness :
    start_listening (start_listening ⟨[]⟩ "acc" true).1 "acc" true =
      ((start_listening ⟨[]⟩ "acc" true).1, true) ∧
    (start_listening ⟨[]⟩ "acc" true).1.lookup "acc" =
      some initListener.start ∧
    ((start_listening ⟨[]⟩ "acc" true).1.listeners.filter
      (fun p => p.1 = "acc")).length = 1 :=
  ⟨(start_listening_idempotent ⟨[]⟩ "acc" rfl).1,
   (start_listening_idempotent ⟨[]⟩ "acc" rfl).2.1,
   (start_listening_idempotent ⟨[]⟩ "acc" rfl).2.2.1⟩

/-- C6: `mark_as_read` never lets an exception cross the boundary — for
every cached-connection state and every outcome of the `noop` probe, the
lazy connection creation and the STORE command, the listener call returns
`Except.ok` with a boolean that is `true` exactly when a connection was
obtained (live cached connection, or fresh login) and the STORE succeeded;
the manager call is likewise total and reports `False` for an account with
no registered listener. -/
theorem mark_as_read_never_throws :
    (∀ (st : ListenerState) (env : OpEnv),
      ∃ st' b, st.mark_as_read env = Except.ok (st', b) ∧
        (b = true ↔
          ((st.operation_conn = true ∧ env.noopRes = Except.ok ()) ∨
            env.connectRes = Except.ok ()) ∧
          env.storeRes = Except.ok ())) ∧
    (∀ (m : ManagerState) (accountId : String) (env : OpEnv),
      ∃ m' b, manager_mark_as_read m accountId env = Except.ok (m', b)) ∧
    (∀ (m : ManagerState) (accountId : String) (env : OpEnv),
      m.lookup accountId = none →
      manager_mark_as_read m accountId env = Except.ok (m, false)) := by
  have hlst : ∀ (st : ListenerState) (env : OpEnv),
      ∃ st' b, st.mark_as_read env = Except.ok (st', b) ∧
        (b = true ↔
          ((st.operation_conn = true ∧ env.noopRes = Except.ok ()) ∨
            env.connectRes = Except.ok ()) ∧
          env.storeRes = Except.ok ()) := by
    intro st env
    obtain ⟨n, c, s⟩ := env
    rcases n with ⟨⟨⟩⟩ | ⟨⟨⟩⟩ <;> rcases c with ⟨⟨⟩⟩ | ⟨⟨⟩⟩ <;>
      rcases s with ⟨⟨⟩⟩ | ⟨⟨⟩⟩ <;> cases hoc : st.operation_conn <;>
        simp [ListenerState.mark_as_read, get_operation_connection,
          createOperationConn, hoc, bind, Except.bind]
  refine ⟨hlst, ?_, ?_⟩
  · intro m accountId env
    rcases hf : m.listeners.find? (fun p => p.1 = accountId) with _ | p
    · exact ⟨m, false, by simp [manager_mark_as_read, hf]⟩
    · obtain ⟨st', b, hok, _⟩ := hlst p.2 env
      refine ⟨ManagerState.mk (m.listeners.map
        (fun q => if q.1 = accountId then (q.1, st') else q)), b, ?_⟩
      simp [manager_mark_as_read, hf, hok, bind, Except.bind]
  · intro m accountId env h
    have hf : m.listeners.find? (fun p => p.1 = accountId) = none := by
      simpa [ManagerState.lookup] using h
    simp [manager_mark_as_read, hf]

/-- Helper: the per-uid fetch loop, on a strictly ascending uid list lying
strictly above the cursor, emits its events in ascending order, never moves
the cursor down, advances it to the last (= highest) successful uid, and
every emitted uid lies in `(c, c']`. -/
theorem processNewUids_spec (uids : List Nat) :
    ∀ (c : Nat) (f : Nat → Bool),
    uids.Pairwise (· < ·) → (∀ u ∈ uids, c < u) →
    c ≤ (processNewUids c uids f).1 ∧
    (processNewUids c uids f).2.Pairwise (· < ·) ∧
    (processNewUids c uids f).1 = (processNewUids c uids f).2.getLastD c ∧
    (∀ u ∈ (processNewUids c uids f).2,
      u ≤ (processNewUids c uids f).1 ∧ c < u) := by
  induction uids with
  | nil => intro c f _ _; simp [processNewUids]
  | cons u rest ih =>
    intro c f hp ha
    have hrest : rest.Pairwise (· < ·) := (List.pairwise_cons.mp hp).2
    have hu : ∀ v ∈ rest, u < v := (List.pairwise_cons.mp hp).1
    have hcu : c < u := ha u (by simp)
    cases hf : f u
    · have iha := ih c f hrest (fun v hv => ha v (by simp [hv]))
      simp only [processNewUids, hf, Bool.false_eq_true, if_false]
      exact iha
    · have ihu := ih u f hrest hu
      simp only [processNewUids, hf, if_true]
      refine ⟨le_trans (le_of_lt hcu) ihu.1, ?_, ?_, ?_⟩
      · rw [List.pairwise_cons]
        exact ⟨fun e he => (ihu.2.2.2 e he).2, ihu.2.1⟩
      · rw [List.getLastD_cons]
        exact ihu.2.2.1
      · intro v hv
        rcases List.mem_cons.mp hv with rfl | hv'
        · exact ⟨ihu.1, hcu⟩
        · exact ⟨(ihu.2.2.2 v hv').1, lt_trans hcu (ihu.2.2.2 v hv').2⟩

/-- C5: within a session, each fetch batch satisfying the SEARCH contract
(uids strictly ascending, all strictly above the cursor) fires its
`new-message` callbacks in ascending server-identifier order and advances
the cursor to the highest successfully processed identifier of the batch
(`getLastD` of the ascending event list); and across any sequence of such
batches the last-processed cursor is non-decreasing. -/
theorem cursor_monotonic :
    (∀ (c : Nat) (uids : List Nat) (f : Nat → Bool),
      uids.Pairwise (· < ·) → (∀ u ∈ uids, c < u) →
      c ≤ (processNewUids c uids f).1 ∧
      (processNewUids c uids f).2.Pairwise (· < ·) ∧
      (processNewUids c uids f).1 =
        (processNewUids c uids f).2.getLastD c) ∧
    (∀ (c : Nat) (bs : List FetchBatch), BatchesOk c bs →
      c ≤ (runBatches c bs).1) := by
  constructor
  · intro c uids f hp ha
    have h := processNewUids_spec uids c f hp ha
    exact ⟨h.1, h.2.1, h.2.2.1⟩
  · intro c bs
    induction bs generalizing c with
    | nil => intro _; simp [runBatches]
    | cons b rest ih =>
      intro hok
      obtain ⟨hp, ha, hrest⟩ := hok
      have h1 := processNewUids_spec b.uids c b.fetchOk hp ha
      have h2 := ih _ hrest
      simp only [runBatches]
      exact le_trans h1.1 h2

/-- Witness for C5: three identifiers above cursor 7 give ascending events
and cursor 10; a one-batch sequence is non-decreasing. -/
theorem cursor_monotonic_witness :
    (7 ≤ (processNewUids 7 [8, 9, 10] (fun _ => true)).1 ∧
     (processNewUids 7 [8, 9, 10] (fun _ => true)).2.Pairwise (· < ·) ∧
     (processNewUids 7 [8, 9, 10] (fun _ => true)).1 =
       (processNewUids 7 [8, 9, 10] (fun _ => true)).2.getLastD 7) ∧
    7 ≤ (runBatches 7 [FetchBatch.mk [8, 9, 10] (fun _ => true)]).1 :=
  ⟨cursor_monotonic.1 7 [8, 9, 10] (fun _ => true) (by decide) (by decide),
   cursor_monotonic.2 7 [FetchBatch.mk [8, 9, 10] (fun _ => true)]
     ⟨by decide, by decide, trivial⟩⟩

set_option maxHeartbeats 4000000 in
/-- Helper: the full evaluation of the parser on the C7 message, for an
arbitrary payload tail: empty plain body, the html body with the reference
resolved, no attachments, and one materialized file holding the payload. -/
theorem parse_email_content_msgC7 (rest : List Nat) :
    parse_email_content (msgC7 rest) ("m1".data) =
      ([], htmlOutC7, [], [("m1_img1.png".data, pngMagic ++ rest)]) :=
  rfl

/-- C7: for every payload extending the PNG magic bytes, parsing the
multipart message whose html part references `cid:img1` and whose inline
image part carries content-id `img1` with that payload leaves zero
occurrences of `cid:img1` in the output html, materializes exactly one
file whose bytes equal the original payload, and the generated filename
ends in `.png`. -/
theorem parser_inline_png (rest : List Nat) :
    containsSub ("cid:img1".data)
      (parse_email_content (msgC7 rest) ("m1".data)).2.1 = false ∧
    (parse_email_content (msgC7 rest) ("m1".data)).2.2.2 =
      [("m1_img1.png".data, pngMagic ++ rest)] ∧
    endsWithL (".png".data) ("m1_img1.png".data) = true := by
  rw [parse_email_content_msgC7 rest]
  refine ⟨?_, rfl, by decide⟩
  show containsSub ("cid:img1".data) htmlOutC7 = false
  decide

/-- Helper: `textConcat` distributes over leaf-list concatenation. -/
theorem textConcat_append (t : List Char) (l1 l2 : List LeafPart) :
    textConcat t (l1 ++ l2) = textConcat t l1 ++ textConcat t l2 := by
  simp [textConcat, List.filter_append]

/-- Helper: classifying one filename-free, non-attachment leaf appends its
decoded content to the accumulator matching its content type and leaves
both accumulators otherwise untouched. -/
theorem parse_part_text (st : ParseState) (l : LeafPart)
    (h : PlainTextLeaf l) :
    (parse_part st l).body = st.body ++ textConcat ("text/plain".data) [l] ∧
    (parse_part st l).body_html =
      st.body_html ++ textConcat ("text/html".data) [l] := by
  obtain ⟨hfn, hatt⟩ := h
  unfold parse_part parsePartTail
  by_cases himg : listStarts ("image/".data) l.content_type = true
  · have hnp : ¬ l.content_type = "text/plain".data := by
      intro hc; rw [hc] at himg; exact absurd himg (by decide)
    have hnh : ¬ l.content_type = "text/html".data := by
      intro hc; rw [hc] at himg; exact absurd himg (by decide)
    by_cases hcid : l.content_id = [] <;>
      by_cases hinl :
        containsSub ("inline".data) (lowerL l.content_disposition) = true <;>
        simp [himg, hcid, hinl, hatt, hfn, textConcat, hnp, hnh]
  · by_cases hph : l.content_type = "text/html".data
    · simp [himg, hph, hatt, hfn, textConcat, leafTextContent, listStarts]
    · by_cases hpp : l.content_type = "text/plain".data
      · simp [himg, hph, hpp, hatt, hfn, textConcat, leafTextContent,
          listStarts]
      · simp [himg, hph, hpp, hatt, hfn, textConcat]

mutual

/-- Helper: the traversal accumulates, in depth-first order, exactly the
decoded contents of the `text/plain` leaves into `body` and of the
`text/html` leaves into `body_html`. -/
theorem walk_parts_text (p : Part) : ∀ (st : ParseState),
    (∀ l ∈ leavesOf p, PlainTextLeaf l) →
    (walk_parts st p).body =
      st.body ++ textConcat ("text/plain".data) (leavesOf p) ∧
    (walk_parts st p).body_html =
      st.body_html ++ textConcat ("text/html".data) (leavesOf p) := by
  cases p with
  | leaf l =>
    intro st h
    have := parse_part_text st l (h l (by simp [leavesOf]))
    simpa [walk_parts, leavesOf] using this
  | multi subs =>
    intro st h
    have := walkPartsList_text subs st (by simpa [leavesOf] using h)
    simpa [walk_parts, leavesOf] using this

/-- Helper: list version of `walk_parts_text`. -/
theorem walkPartsList_text (ps : List Part) : ∀ (st : ParseState),
    (∀ l ∈ leavesOfList ps, PlainTextLeaf l) →
    (walkPartsList st ps).body =
      st.body ++ textConcat ("text/plain".data) (leavesOfList ps) ∧
    (walkPartsList st ps).body_html =
      st.body_html ++ textConcat ("text/html".data) (leavesOfList ps) := by
  cases ps with
  | nil => intro st _; simp [walkPartsList, leavesOfList, textConcat]
  | cons p rest =>
    intro st h
    have h1 := walk_parts_text p st
      (fun l hl => h l (by simp [leavesOfList, hl]))
    have h2 := walkPartsList_text rest (walk_parts st p)
      (fun l hl => h l (by simp [leavesOfList, hl]))
    refine ⟨?_, ?_⟩ <;>
      simp [walkPartsList, leavesOfList, textConcat_append, h1.1, h1.2,
        h2.1, h2.2]

end

/-- C8: on a message all of whose leaves are filename-free and without an
`attachment` disposition, the parser's two body accumulators are exactly
the depth-first concatenations of the decoded `text/plain` and `text/html`
leaf contents respectively — parts of the same type append rather than
overwrite, the two accumulators are never merged, and each is non-empty as
soon as one leaf of its type has non-empty content. -/
theorem parser_text_parts_appended (msg : Part)
    (h : ∀ l ∈ leavesOf msg, PlainTextLeaf l) :
    (walk_parts initParseState msg).body =
      textConcat ("text/plain".data) (leavesOf msg) ∧
    (walk_parts initParseState msg).body_html =
      textConcat ("text/html".data) (leavesOf msg) ∧
    (∀ l ∈ leavesOf msg, l.content_type = "text/plain".data →
      leafTextContent l ≠ [] → (walk_parts initParseState msg).body ≠ []) ∧
    (∀ l ∈ leavesOf msg, l.content_type = "text/html".data →
      leafTextContent l ≠ [] →
        (walk_parts initParseState msg).body_html ≠ []) := by
  obtain ⟨h1, h2⟩ := walk_parts_text msg initParseState h
  have hinit : initParseState.body = [] ∧ initParseState.body_html = [] :=
    ⟨rfl, rfl⟩
  rw [hinit.1] at h1
  rw [hinit.2] at h2
  simp only [List.nil_append] at h1 h2
  refine ⟨h1, h2, ?_, ?_⟩
  · intro l hl hct hne
    rw [h1]
    intro hcon
    have : leafTextContent l = [] := by
      have hmem : leafTextContent l ∈
          ((leavesOf msg).filter
            (fun p => p.content_type = "text/plain".data)).map
            leafTextContent :=
        List.mem_map_of_mem leafTextContent
          (List.mem_filter.mpr ⟨hl, by simp [hct]⟩)
      have := (List.flatten_eq_nil_iff.mp (by
        simpa [textConcat] using hcon)) _ hmem
      exact this
    exact hne this
  · intro l hl hct hne
    rw [h2]
    intro hcon
    have : leafTextContent l = [] := by
      have hmem : leafTextContent l ∈
          ((leavesOf msg).filter
            (fun p => p.content_type = "text/html".data)).map
            leafTextContent :=
        List.mem_map_of_mem leafTextContent
          (List.mem_filter.mpr ⟨hl, by simp [hct]⟩)
      have := (List.flatten_eq_nil_iff.mp (by
        simpa [textConcat] using hcon)) _ hmem
      exact this
    exact hne this

/-- Witness for C8 at a concrete two-part message. -/
theorem parser_text_parts_appended_witness :
    (walk_parts initParseState msgC8).body =
      textConcat ("text/plain".data) (leavesOf msgC8) ∧
    (walk_parts initParseState msgC8).body_html =
      textConcat ("text/html".data) (leavesOf msgC8) ∧
    (walk_parts initParseState msgC8).body ≠ [] ∧
    (walk_parts initParseState msgC8).body_html ≠ [] :=
  ⟨(parser_text_parts_appended msgC8 (by decide)).1,
   (parser_text_parts_appended msgC8 (by decide)).2.1,
   (parser_text_parts_appended msgC8 (by decide)).2.2.1 plainLeafC8
     (by decide) (by decide) (by decide),
   (parser_text_parts_appended msgC8 (by decide)).2.2.2 htmlLeafC8
     (by decide) (by decide) (by decide)⟩

/-- Witness for C6: an unregistered account id reports `False` without an
exception. -/
theorem mark_as_read_never_throws_witness :
    manager_mark_as_read ⟨[]⟩ "acc"
      ⟨Except.ok (), Except.ok (), Except.ok ()⟩ =
      Except.ok (⟨[]⟩, false) :=
  mark_as_read_never_throws.2.2 ⟨[]⟩ "acc"
    ⟨Except.ok (), Except.ok (), Except.ok ()⟩ rfl

end Deskmate
